import Mathlib

/-!
Verification development for the netstack-lwip bridging crate.

The crate bridges the single-threaded lwIP protocol engine to async Rust
socket objects.  `src/src/lib.rs` declares the process-wide ticket mutex
`LWIP_MUTEX` guarding every engine entry point and the public error enum
`Error` (one variant, `LwIP(i8)`, wrapping the engine status code).
`src/build.rs` selects platform SDK include paths and hands the lwIP C
sources to the C compiler.  The remaining modules (stack, tcp_listener,
tcp_stream, tcp_stream_context, udp) are declared in lib.rs; where their
bodies are not available, the corresponding definitions below are modelled
from the specification and are marked as such in their doc comments.
-/

namespace NetstackLwip

/-! ## Public error surface (from src/src/lib.rs) -/

/-- The public error enum of the crate, embedded from `src/src/lib.rs`:
`pub enum Error { LwIP(i8) }` — a single tagged variant wrapping the
underlying lwIP status code (an `i8`, modelled as `Int`). -/
inductive Error where
  | LwIP (code : Int) : Error
deriving DecidableEq, Repr

/-- An error value is "distinct from the wrapped-code error" when it is not
of the form `Error.LwIP c` for any code `c`.  The spec's `EngineInitError`
would have to be such a value to be a distinct error. -/
def isDistinctInitError (e : Error) : Prop :=
  ∀ c : Int, e ≠ Error.LwIP c

/-! ## Build script (from src/build.rs) -/

/-- Embedded from `sdk_include_path` in `src/build.rs`: given the target OS
(`CARGO_CFG_TARGET_OS`) and the full target triple (`TARGET`), returns the
name of the Apple SDK whose include path is added to the engine build
(the argument passed to `sdk_include_path_for`, which invokes
`xcrun --sdk <name> --show-sdk-path`), or `none` when no SDK include path
is added. -/
def sdk_include_path (os target : String) : Option String :=
  if os = "ios" then
    if target = "x86_64-apple-ios" ∨ target = "aarch64-apple-ios-sim" then
      some "iphonesimulator"
    else
      some "iphoneos"
  else if os = "macos" then
    some "macosx"
  else
    none

/-- Embedded from `compile_lwip` in `src/build.rs`: the exact list of C
source files handed to the `cc::Build` via `.file(...)` calls
(commented-out `.file` lines in the source are omitted, as the compiler
never receives them). -/
def compile_lwip_files : List String :=
  [ "src/lwip/core/init.c"
  , "src/lwip/core/def.c"
  , "src/lwip/core/inet_chksum.c"
  , "src/lwip/core/ip.c"
  , "src/lwip/core/mem.c"
  , "src/lwip/core/memp.c"
  , "src/lwip/core/netif.c"
  , "src/lwip/core/pbuf.c"
  , "src/lwip/core/raw.c"
  , "src/lwip/core/tcp.c"
  , "src/lwip/core/tcp_in.c"
  , "src/lwip/core/tcp_out.c"
  , "src/lwip/core/timeouts.c"
  , "src/lwip/core/udp.c"
  , "src/lwip/core/ipv4/icmp.c"
  , "src/lwip/core/ipv4/ip4_frag.c"
  , "src/lwip/core/ipv4/ip4.c"
  , "src/lwip/core/ipv4/ip4_addr.c"
  , "src/lwip/core/ipv6/icmp6.c"
  , "src/lwip/core/ipv6/ip6.c"
  , "src/lwip/core/ipv6/ip6_addr.c"
  , "src/lwip/core/ipv6/ip6_frag.c"
  , "src/lwip/core/ipv6/nd6.c"
  , "src/lwip/custom/sys_arch.c"
  ]

/-! ## Exclusive Access Guard (LWIP_MUTEX) -/

/-- Modelled from the spec: the Exclusive Access Guard, declared in
`src/src/lib.rs` as `LWIP_MUTEX: spin::mutex::TicketMutex<()>` — "one
process-wide mutual-exclusion section (fair/FIFO ordering) serializing all
engine entry points".  A ticket lock holds two counters: `next`, the next
ticket to hand out, and `serving`, the ticket currently admitted to the
critical section. -/
structure Guard where
  next : Nat
  serving : Nat
deriving DecidableEq, Repr

/-- Modelled from the spec: a trace event on the guard.  `request` is a
thread asking for the exclusive section (it takes ticket `next`);
`release` is the current holder leaving the section. -/
inductive GuardOp where
  | request : GuardOp
  | release : GuardOp
deriving DecidableEq, Repr

/-- Modelled from the spec: one transition of the ticket lock.  A request
increments `next`; a release advances `serving` by one (only meaningful
when some issued ticket is being served, i.e. `serving < next`). -/
def guardStep (s : Guard) : GuardOp → Guard
  | .request => { s with next := s.next + 1 }
  | .release => if s.serving < s.next then { s with serving := s.serving + 1 } else s

/-- The guard state reached by running a trace of operations from the
initial state (no tickets issued, serving counter 0). -/
def guardRun (ops : List GuardOp) : Guard :=
  ops.foldl guardStep ⟨0, 0⟩

/-- Ticket `t` occupies the critical section: it has been issued
(`t < next`) and is the ticket currently admitted (`serving = t`). -/
def inSection (s : Guard) (t : Nat) : Prop :=
  s.serving = t ∧ t < s.next

instance (s : Guard) (t : Nat) : Decidable (inSection s t) := by
  unfold inSection; infer_instance

/-- Modelled from the spec: acquiring the guard.  The thread takes the
current `next` ticket; the operation is a total function — there is no
error branch, the thread simply spins until `serving` reaches its
ticket. -/
def acquireTicket (s : Guard) : Guard × Nat :=
  ({ s with next := s.next + 1 }, s.next)

/-- Run `k` release transitions on the guard. -/
def applyReleases : Nat → Guard → Guard
  | 0, s => s
  | k + 1, s => applyReleases k (guardStep s .release)

theorem guardStep_serving_le (s : Guard) (op : GuardOp) :
    s.serving ≤ (guardStep s op).serving := by
  cases op with
  | request => simp [guardStep]
  | release =>
    simp only [guardStep]
    split <;> simp

theorem guardStep_serving_succ_le (s : Guard) (op : GuardOp) :
    (guardStep s op).serving ≤ s.serving + 1 := by
  cases op with
  | request => simp [guardStep]
  | release =>
    simp only [guardStep]
    split <;> simp

theorem guardStep_serving_lt_next (s : Guard) (op : GuardOp)
    (h : s.serving < (guardStep s op).serving) : s.serving < s.next := by
  cases op with
  | request => simp [guardStep] at h
  | release =>
    simp only [guardStep] at h
    split at h
    · assumption
    · simp at h

theorem guardRun_take_succ (ops : List GuardOp) (n : Nat) (hn : n < ops.length) :
    guardRun (ops.take (n + 1)) = guardStep (guardRun (ops.take n)) (ops.get ⟨n, hn⟩) := by
  unfold guardRun
  rw [List.take_succ, List.foldl_append]
  simp [List.getElem?_eq_getElem hn]

/-- The serving counter never decreases along a trace. -/
theorem guardRun_serving_mono (ops : List GuardOp) (i j : Nat) (hij : i ≤ j) :
    (guardRun (ops.take i)).serving ≤ (guardRun (ops.take j)).serving := by
  induction j with
  | zero =>
    have h0 : i = 0 := Nat.le_zero.mp hij
    subst h0; exact Nat.le_refl _
  | succ j ih =>
    rcases Nat.lt_or_ge i (j + 1) with hi | hi
    · have h1 := ih (Nat.lt_succ_iff.mp hi)
      rcases Nat.lt_or_ge j ops.length with hj | hj
      · have h2 := guardStep_serving_le (guardRun (ops.take j)) (ops.get ⟨j, hj⟩)
        rw [guardRun_take_succ ops j hj]
        exact Nat.le_trans h1 h2
      · rw [List.take_of_length_le (Nat.le_of_lt (Nat.lt_succ_of_le hj))]
        rw [List.take_of_length_le hj] at h1
        exact h1
    · have heq : i = j + 1 := Nat.le_antisymm hij hi
      subst heq; exact Nat.le_refl _

/-- If the serving counter has passed ticket `t` by position `j` of a
trace, then at some strictly earlier position ticket `t` occupied the
critical section (the counter advances one ticket at a time, and advances
only past issued tickets). -/
theorem guardRun_attained (ops : List GuardOp) (t j : Nat)
    (h : t < (guardRun (ops.take j)).serving) :
    ∃ i, i < j ∧ inSection (guardRun (ops.take i)) t := by
  induction j with
  | zero =>
    simp [guardRun] at h
  | succ j ih =>
    rcases Nat.lt_or_ge j ops.length with hj | hj
    · rw [guardRun_take_succ ops j hj] at h
      rcases Nat.lt_or_ge t (guardRun (ops.take j)).serving with ht | ht
      · obtain ⟨i, hi, hsec⟩ := ih ht
        exact ⟨i, Nat.lt_succ_of_lt hi, hsec⟩
      · have h2 := guardStep_serving_succ_le (guardRun (ops.take j)) (ops.get ⟨j, hj⟩)
        have hteq : (guardRun (ops.take j)).serving = t := by omega
        have hlt : (guardRun (ops.take j)).serving <
            (guardStep (guardRun (ops.take j)) (ops.get ⟨j, hj⟩)).serving := by omega
        have hnext := guardStep_serving_lt_next (guardRun (ops.take j)) _ hlt
        exact ⟨j, Nat.lt_succ_self j, hteq, hteq ▸ hnext⟩
    · rw [List.take_of_length_le (Nat.le_of_lt (Nat.lt_succ_of_le hj)),
        ← List.take_of_length_le hj] at h
      obtain ⟨i, hi, hsec⟩ := ih h
      exact ⟨i, Nat.lt_succ_of_lt hi, hsec⟩

/-- Running `k` releases advances the serving counter by exactly `k`, as
long as it does not run past the last issued ticket. -/
theorem applyReleases_eq (k : Nat) (s : Guard) (h : s.serving + k ≤ s.next) :
    applyReleases k s = { s with serving := s.serving + k } := by
  induction k generalizing s with
  | zero => rfl
  | succ k ih =>
    have hlt : s.serving < s.next := by omega
    show applyReleases k (guardStep s .release) = _
    rw [show guardStep s .release = { s with serving := s.serving + 1 } from by
      simp [guardStep, hlt]]
    rw [ih { s with serving := s.serving + 1 } (by simp; omega)]
    have harith : s.serving + 1 + k = s.serving + (k + 1) := by omega
    simp [harith]

/-! ## Outbound packet queue (Stack) -/

/-- A raw IP packet, abstracted as its byte sequence. -/
abbrev Packet := List Nat

/-- Modelled from the spec: the Stack state visible to these claims — the
ordered outbound packet queue (FIFO), filled by the engine's output
callback and drained by `extract`.  The `stack` module itself is declared
in lib.rs but its body is not under src/. -/
structure NetStack where
  outboundQueue : List Packet
deriving DecidableEq, Repr

/-- Modelled from the spec: the engine's output callback appends one
emitted packet at the back of the outbound queue. -/
def emitPacket (st : NetStack) (p : Packet) : NetStack :=
  ⟨st.outboundQueue ++ [p]⟩

/-- Emit a sequence of packets in order (the order the engine produced
them). -/
def emitAll (st : NetStack) (ps : List Packet) : NetStack :=
  ps.foldl emitPacket st

/-- Modelled from the spec: `extract()` — non-blocking (a total function):
pops the packet at the front of the outbound queue, returning `none` and
leaving the queue empty-unchanged when nothing is queued. -/
def extract (st : NetStack) : Option Packet × NetStack :=
  match st.outboundQueue with
  | [] => (none, ⟨[]⟩)
  | p :: rest => (some p, ⟨rest⟩)

/-- The stack after `n` successive `extract` calls. -/
def extractN : Nat → NetStack → NetStack
  | 0, st => st
  | n + 1, st => extractN n (extract st).2

/-! ## Stack creation -/

/-- The lwIP status code `ERR_MEM` (out of memory), the engine's
resource-exhaustion status. -/
def errMem : Int := -1

/-- Modelled from the spec: Stack creation.  "fails with `EngineInitError`
on resource exhaustion; no partial Stack on failure" — the failure path
returns an error of the crate's public `Error` type (from lib.rs, whose
only variant wraps the engine status code), and the `Except` result
carries either a Stack or an error, never a partial Stack.  Resource
exhaustion is abstracted as a boolean input. -/
def createStack (exhausted : Bool) : Except Error NetStack :=
  if exhausted then .error (.LwIP errMem) else .ok ⟨[]⟩

/-! ## Connection Context (tcp_stream_context) -/

/-- Modelled from the spec: per-connection bridging state — pending
inbound buffer, last error code, liveness flag, finalized flag, one
registered reader waker and one writer waker (modelled as "a waker is
registered" booleans).  The `tcp_stream_context` module is declared in
lib.rs but its body is not under src/. -/
structure TcpStreamContext where
  inboundBuffer : List Nat
  errorCode : Option Int
  live : Bool
  finalized : Bool
  readerWakerSet : Bool
  writerWakerSet : Bool
deriving DecidableEq, Repr

/-- Modelled from the spec: the two paths that can finalize a Connection
Context — the engine's finalization/error callback, and the consumer
dropping its handle. -/
inductive FinalizeTrigger where
  | engineError (code : Int) : FinalizeTrigger
  | consumerDrop : FinalizeTrigger
deriving DecidableEq, Repr

/-- Modelled from the spec: finalizing a Connection Context.  The engine
error path sets liveness false, records the error and wakes (consumes)
both registered wakers; the consumer-drop path sets liveness false.  The
transition is guarded by the finalized flag so it happens exactly once:
a repeated trigger leaves the state unchanged. -/
def applyFinalize (c : TcpStreamContext) : FinalizeTrigger → TcpStreamContext
  | .engineError code =>
    if c.finalized then c
    else { c with live := false, finalized := true, errorCode := some code,
                  readerWakerSet := false, writerWakerSet := false }
  | .consumerDrop =>
    if c.finalized then c
    else { c with live := false, finalized := true }

/-! ## Stream close (tcp_stream) -/

/-- A call into the protocol engine issued by the bridging layer (only the
ones these claims observe). -/
inductive EngineCall where
  | tcpClose : EngineCall
deriving DecidableEq, Repr

/-- Modelled from the spec: the Stream-facing close state — whether the
consumer has already initiated close, and whether the underlying context
is still live.  The `tcp_stream` module is declared in lib.rs but its body
is not under src/. -/
structure TcpStream where
  closeInitiated : Bool
  contextLive : Bool
deriving DecidableEq, Repr

/-- Modelled from the spec: `close()` — "initiates graceful shutdown if
live ... Double-close is a no-op."  Returns the new stream state together
with the engine calls issued (under the guard).  A second close issues no
engine call and changes nothing. -/
def closeStream (s : TcpStream) : TcpStream × List EngineCall :=
  if s.closeInitiated then (s, [])
  else ({ s with closeInitiated := true },
        if s.contextLive then [EngineCall.tcpClose] else [])

/-! ## Backpressure (write and accept paths) -/

/-- Outcome of polling a write against the engine send buffer: the bytes
were handed to the engine, or the caller is suspended until `on_sent`, or
the operation fails with a public error. -/
inductive WritePoll where
  | ready (n : Nat) : WritePoll
  | pending : WritePoll
  | failed (e : Error) : WritePoll
deriving DecidableEq, Repr

/-- Modelled from the spec: `write(buf)` polled against a send buffer with
`avail` free bytes — "suspends on insufficient send-buffer space, resuming
on `on_sent`"; a dead connection fails with the recorded error; a full
send buffer suspends (`pending`), never an error. -/
def pollWrite (c : TcpStreamContext) (avail len : Nat) : WritePoll :=
  if ¬ c.live then .failed (.LwIP (c.errorCode.getD errMem))
  else if avail = 0 then .pending
  else .ready (min len avail)

/-- Disposition of a newly established connection arriving at a
Listener. -/
inductive AcceptAction where
  | enqueued : AcceptAction
  | rejected : AcceptAction
deriving DecidableEq, Repr

/-- Modelled from the spec: `on_accept(new_handle)` — "pushes onto the
owning Listener's Accept Queue; if full, the connection is
rejected/aborted rather than queued unboundedly".  Returns the new queue
and the action taken; the outcome type has no error constructor. -/
def onAccept (backlog : Nat) (queue : List Nat) (handle : Nat) :
    List Nat × AcceptAction :=
  if backlog ≤ queue.length then (queue, .rejected)
  else (queue ++ [handle], .enqueued)

/-! ## Asynchronous error delivery (tcp_stream / udp error callbacks) -/

/-- The semantic error kinds of the spec, derived from the engine's
asynchronous error callback. -/
inductive SemanticErrorKind where
  | connectionReset : SemanticErrorKind
  | connectionRefused : SemanticErrorKind
  | timedOut : SemanticErrorKind
deriving DecidableEq, Repr

/-- lwIP status code `ERR_TIMEOUT`. -/
def errTimeout : Int := -3
/-- lwIP status code `ERR_CONN` (not connected). -/
def errConn : Int := -11
/-- lwIP status code `ERR_ABRT` (connection aborted). -/
def errAbrt : Int := -13
/-- lwIP status code `ERR_RST` (connection reset). -/
def errRst : Int := -14
/-- lwIP status code `ERR_CLSD` (connection closed). -/
def errClsd : Int := -15

/-- The status codes the engine hands to the asynchronous per-connection
error callback (`tcp_err` style): abort, reset, close, refusal and
timeout conditions. -/
def asyncCallbackCodes : List Int := [errRst, errClsd, errAbrt, errConn, errTimeout]

/-- Modelled from the spec: translation of the asynchronous error
callback's status code into the semantic kind delivered to the pending
operation — reset/closed codes become `ConnectionReset`, abort/refusal
codes become `ConnectionRefused`, the timeout code becomes `TimedOut`. -/
def deliverAsyncError (code : Int) : Option SemanticErrorKind :=
  if code = errRst ∨ code = errClsd then some .connectionReset
  else if code = errAbrt ∨ code = errConn then some .connectionRefused
  else if code = errTimeout then some .timedOut
  else none

/-! ## Queue lemmas -/

theorem extractN_queue (n : Nat) (st : NetStack) :
    (extractN n st).outboundQueue = st.outboundQueue.drop n := by
  induction n generalizing st with
  | zero => rfl
  | succ n ih =>
    show (extractN n (extract st).2).outboundQueue = _
    rw [ih]
    cases hq : st.outboundQueue with
    | nil => simp [extract, hq]
    | cons p rest => simp [extract, hq]

theorem emitAll_queue (st : NetStack) (ps : List Packet) :
    (emitAll st ps).outboundQueue = st.outboundQueue ++ ps := by
  induction ps generalizing st with
  | nil => simp [emitAll]
  | cons p ps ih =>
    show (emitAll (emitPacket st p) ps).outboundQueue = _
    rw [ih]
    simp [emitPacket]

/-- Finalization is guarded: a trigger on an already-finalized context
changes nothing. -/
theorem applyFinalize_of_finalized (c : TcpStreamContext) (t : FinalizeTrigger)
    (h : c.finalized = true) : applyFinalize c t = c := by
  cases t <;> simp [applyFinalize, h]

/-! ## Claim theorems -/

/-- C1: all access to the protocol engine is serialized through one
process-wide mutual-exclusion section with fair/FIFO ordering: at every
instant at most one ticket occupies the critical section (critical
sections of any two entry points are disjoint in time), and sections are
granted in ticket order — tickets are issued in request order, and a
ticket requested earlier (smaller) is granted at a strictly earlier
position of the trace than any later ticket. -/
theorem C1_guard_serializes_fifo :
    (∀ (s : Guard) (t₁ t₂ : Nat), inSection s t₁ → inSection s t₂ → t₁ = t₂) ∧
    (∀ (ops : List GuardOp) (t₁ t₂ j : Nat), t₁ < t₂ →
      inSection (guardRun (ops.take j)) t₂ →
      ∃ i, i < j ∧ inSection (guardRun (ops.take i)) t₁) := by
  constructor
  · intro s t₁ t₂ h1 h2
    rw [← h1.1, ← h2.1]
  · intro ops t₁ t₂ j h12 hsec
    have ht : t₁ < (guardRun (ops.take j)).serving := by
      have hs := hsec.1
      omega
    exact guardRun_attained ops t₁ j ht

/-- Witness for C1 on a concrete trace: two requests then one release;
ticket 1 is in the section at position 3, and ticket 0 was granted at an
earlier position. -/
theorem C1_guard_serializes_fifo_witness :
    ∃ i, i < 3 ∧
      inSection (guardRun (([.request, .request, .release] : List GuardOp).take i)) 0 :=
  C1_guard_serializes_fifo.2 [.request, .request, .release] 0 1 3 (by decide) (by decide)

/-- C2: the public error surface is one tagged error wrapping the engine
status code (every `Error` value is `Error.LwIP c` for some code `c`), and
every status code the engine hands to the asynchronous error callback is
delivered to the pending operation as one of the semantic kinds
`ConnectionReset` / `ConnectionRefused` / `TimedOut`. -/
theorem C2_error_surface :
    (∀ e : Error, ∃ c : Int, e = Error.LwIP c) ∧
    (∀ code ∈ asyncCallbackCodes, ∃ k, deliverAsyncError code = some k) := by
  constructor
  · intro e
    cases e with
    | LwIP c => exact ⟨c, rfl⟩
  · intro code hc
    fin_cases hc <;> exact ⟨_, rfl⟩

/-- Witness for C2: the reset code `ERR_RST` is an asynchronous callback
code and is delivered as a semantic kind. -/
theorem C2_error_surface_witness : ∃ k, deliverAsyncError errRst = some k :=
  C2_error_surface.2 errRst (by decide)

/-- C3 counterexample: no error value of the crate's public `Error` type
is distinct from the wrapped-code error — the enum in `src/src/lib.rs` has
the single variant `LwIP(i8)`, so a distinct `EngineInitError` does not
exist in the public error surface. -/
theorem C3_no_distinct_init_error : ¬ ∃ e : Error, isDistinctInitError e := by
  rintro ⟨e, hd⟩
  cases e with
  | LwIP c => exact hd c rfl

/-- C3 (amended): on resource exhaustion Stack creation fails with the
crate's sole error variant `Error::LwIP(code)` wrapping the engine status
code (here `ERR_MEM`); the `Except` result carries no partial Stack on the
failure path, and every public error value wraps a status code. -/
theorem C3_create_fails_with_wrapped_error :
    createStack true = .error (Error.LwIP errMem) ∧
    (∀ e : Error, ∃ c : Int, e = Error.LwIP c) := by
  constructor
  · rfl
  · intro e
    cases e with
    | LwIP c => exact ⟨c, rfl⟩

/-- C4: `extract()` is a total (non-blocking) function returning `none` on
an empty outbound queue, and successive `extract` calls return the queued
packets in FIFO order — after the engine emitted the packets `ps` in
order, the `i`-th successive extraction yields `ps[i]`. -/
theorem C4_extract_fifo :
    (extract ⟨[]⟩).1 = none ∧
    (∀ (ps : List Packet) (i : Nat) (h : i < ps.length),
      (extract (extractN i (emitAll ⟨[]⟩ ps))).1 = some (ps.get ⟨i, h⟩)) := by
  constructor
  · rfl
  · intro ps i h
    have hq : (extractN i (emitAll ⟨[]⟩ ps)).outboundQueue = ps.drop i := by
      rw [extractN_queue, emitAll_queue]
      rfl
    have hst : extractN i (emitAll ⟨[]⟩ ps) = ⟨ps.drop i⟩ := by
      rw [← hq]
    have hd : ps.drop i = ps[i] :: ps.drop (i + 1) :=
      List.drop_eq_getElem_cons h
    rw [hst, hd]
    rfl

/-- Witness for C4: with packets `[1]` then `[2]` emitted, the second
extraction returns `[2]`. -/
theorem C4_extract_fifo_witness :
    (extract (extractN 1 (emitAll ⟨[]⟩ [[1], [2]]))).1 = some [2] :=
  C4_extract_fifo.2 [[1], [2]] 1 (by decide)

/-- C5: a Connection Context transitions to the finalized state exactly
once and idempotently: any trigger (engine error callback or consumer
drop) leaves the context finalized, and a repeated trigger — by either
path — leaves the state unchanged. -/
theorem C5_finalize_once_idempotent (c : TcpStreamContext) (t₁ t₂ : FinalizeTrigger) :
    (applyFinalize c t₁).finalized = true ∧
    applyFinalize (applyFinalize c t₁) t₂ = applyFinalize c t₁ := by
  have hfin : ∀ t, (applyFinalize c t).finalized = true := by
    intro t
    cases t <;> simp only [applyFinalize] <;> split <;> simp_all
  exact ⟨hfin t₁, applyFinalize_of_finalized (applyFinalize c t₁) t₂ (hfin t₁)⟩

/-- C6: double close is a no-op: a second `close()` on a Stream performs
no engine call and leaves the state exactly as after the first close. -/
theorem C6_double_close_noop (s : TcpStream) :
    closeStream (closeStream s).1 = ((closeStream s).1, []) := by
  by_cases hs : s.closeInitiated <;> simp [closeStream, hs]

/-- C7: backpressure never surfaces as an error: a write polled against a
full send buffer (zero free bytes) on a live connection suspends the
caller (`pending`, not `failed`), and a connection arriving at a full
Accept Queue is rejected with the queue unchanged — in neither case is an
error value produced. -/
theorem C7_backpressure_not_error :
    (∀ (c : TcpStreamContext) (len : Nat), c.live = true →
      pollWrite c 0 len = .pending) ∧
    (∀ (backlog : Nat) (q : List Nat) (hdl : Nat), backlog ≤ q.length →
      onAccept backlog q hdl = (q, .rejected)) := by
  constructor
  · intro c len hc
    simp [pollWrite, hc]
  · intro backlog q hdl hb
    simp [onAccept, hb]

/-- Witness for C7: a live context with a full send buffer suspends, and a
zero-backlog listener rejects an arriving handle. -/
theorem C7_backpressure_not_error_witness :
    pollWrite ⟨[], none, true, false, false, false⟩ 0 5 = .pending ∧
    onAccept 0 [] 7 = ([], .rejected) :=
  ⟨C7_backpressure_not_error.1 ⟨[], none, true, false, false, false⟩ 5 rfl,
   C7_backpressure_not_error.2 0 [] 7 (by decide)⟩

/-- C8: acquiring the exclusive section never fails: acquisition is a
total function with no error branch — the thread takes a ticket and, once
the holders ahead of it release (one release per ticket ahead), it is
granted the section. -/
theorem C8_acquire_always_granted (s : Guard) (h : s.serving ≤ s.next) :
    inSection
      (applyReleases ((acquireTicket s).2 - s.serving) (acquireTicket s).1)
      (acquireTicket s).2 := by
  have h1 : (acquireTicket s).1 = { s with next := s.next + 1 } := rfl
  have h2 : (acquireTicket s).2 = s.next := rfl
  rw [h1, h2,
    applyReleases_eq (s.next - s.serving) { s with next := s.next + 1 } (by simp; omega)]
  exact ⟨by simp; omega, by simp⟩

/-- Witness for C8: from a guard with two tickets issued and one being
served, a new acquisition is granted after one release. -/
theorem C8_acquire_always_granted_witness :
    inSection
      (applyReleases ((acquireTicket ⟨2, 1⟩).2 - (Guard.mk 2 1).serving)
        (acquireTicket ⟨2, 1⟩).1)
      (acquireTicket ⟨2, 1⟩).2 :=
  C8_acquire_always_granted ⟨2, 1⟩ (by decide)

/-- C9: the engine build excludes DNS resolution: the list of C sources
`compile_lwip` hands to the compiler does not contain the engine's DNS
module `src/lwip/core/dns.c` (its `.file` line is commented out). -/
theorem C9_dns_not_compiled : "src/lwip/core/dns.c" ∉ compile_lwip_files := by
  decide

/-- C10: for every target OS other than `ios` and `macos`,
`sdk_include_path` returns `None`; for target OS `ios` it selects the
`iphonesimulator` SDK exactly when the target triple is
`x86_64-apple-ios` or `aarch64-apple-ios-sim`, and the `iphoneos` SDK
otherwise. -/
theorem C10_sdk_include_path_select (os target : String) :
    (os ≠ "ios" → os ≠ "macos" → sdk_include_path os target = none) ∧
    (sdk_include_path "ios" target = some "iphonesimulator" ↔
      (target = "x86_64-apple-ios" ∨ target = "aarch64-apple-ios-sim")) ∧
    (target ≠ "x86_64-apple-ios" → target ≠ "aarch64-apple-ios-sim" →
      sdk_include_path "ios" target = some "iphoneos") := by
  refine ⟨?_, ?_, ?_⟩
  · intro h1 h2
    simp [sdk_include_path, h1, h2]
  · constructor
    · intro hios
      by_contra hc
      simp [sdk_include_path, hc] at hios
    · intro hd
      simp [sdk_include_path, hd]
  · intro h1 h2
    simp [sdk_include_path, h1, h2]

/-- Witness for C10: a Linux target gets no SDK include path, and an
`aarch64-apple-ios` device target selects the `iphoneos` SDK. -/
theorem C10_sdk_include_path_select_witness :
    sdk_include_path "linux" "x86_64-unknown-linux-gnu" = none ∧
    sdk_include_path "ios" "aarch64-apple-ios" = some "iphoneos" :=
  ⟨(C10_sdk_include_path_select "linux" "x86_64-unknown-linux-gnu").1
      (by decide) (by decide),
   (C10_sdk_include_path_select "ios" "aarch64-apple-ios").2.2
      (by decide) (by decide)⟩

end NetstackLwip

